import Mathlib

/-
  Verification development for the tele-down bot (bot/index.js).

  The bot is a long-poll dispatch loop over Telegram updates with in-memory
  correlation state (pending archive polls keyed by poll id), an archive
  extraction step, and an interactive directory walker.  The embedding below
  translates the relevant JavaScript functions into pure Lean functions:

  * outbound I/O (HTTP calls, filesystem operations, console output) is
    modelled as an explicit trace of `Effect` values, in the order the code
    performs them;
  * the mutable global `LEFT_OVER_POLLS` / `archive_polls` array is threaded
    explicitly as a `List PendingPoll`;
  * JavaScript exceptions are modelled by the `thrown` field of
    `HandlerResult` (the message of the thrown error), carrying the effects
    performed and the store mutations made before the throw;
  * the filesystem and the responses of the remote server are an `Env` of pure
    functions (directory listings, getFile results, the poll id returned by
    sendPoll, existsSync);
  * `String.endsWith`, `String.startsWith`, `String.split`,
    `String.toLowerCase` of JavaScript are given explicit executable
    definitions over character lists so that concrete runs reduce inside the
    kernel.

  Path handling (`path.extname`, `path.basename`, `path.join`) is modelled at
  the string level; the `./`-collapsing normalisation of `path.join` is not
  modelled (paths are treated as opaque tokens, used consistently).
-/

namespace TeleDown

/-! ## String helpers (JavaScript semantics, executable) -/

/-- Characters of the last `/`-separated component: `path.basename`. -/
def basenameChars (cs : List Char) : List Char :=
  (cs.reverse.takeWhile (fun c => !(c == '/'))).reverse

/-- The extension (including the dot) of a basename: `path.extname` applied to
the last path component.  Empty when there is no dot or when the only dot is
the leading character (dotfiles have no extension). -/
def extnameOfBase (base : List Char) : List Char :=
  if base.contains '.' then
    let suffixChars := (base.reverse.takeWhile (fun c => !(c == '.'))).reverse
    if suffixChars.length + 1 == base.length then [] else '.' :: suffixChars
  else []

/-- `path.extname(s)` as a string. -/
def extnameStr (s : String) : String :=
  (extnameOfBase (basenameChars s.toList)).asString

/-- `path.extname(file).slice(1)`: the extension without its dot, as used by
`sendFile` and `getMultimediaFiles`. -/
def fileTypeOf (file : String) : String :=
  ((extnameOfBase (basenameChars file.toList)).drop 1).asString

/-- `path.basename(s)` as a string. -/
def basenameStr (s : String) : String :=
  (basenameChars s.toList).asString

/-- Does the character list `cs` start with `pat`? -/
def listIsStart : List Char → List Char → Bool
  | [], _ => true
  | _ :: _, [] => false
  | p :: ps, c :: cs => p == c && listIsStart ps cs

/-- JavaScript `s.startsWith(pat)`. -/
def strStartsWith (s pat : String) : Bool :=
  listIsStart pat.toList s.toList

/-- JavaScript `s.endsWith(suffix)`. -/
def strEndsWith (s suffix : String) : Bool :=
  Nat.ble suffix.toList.length s.toList.length &&
    (s.toList.drop (s.toList.length - suffix.toList.length) == suffix.toList)

/-- Split a character list on a separator character, JavaScript
`String.prototype.split` semantics (`"a:b".split(':') = ["a","b"]`,
`"".split(':') = [""]`). -/
def splitOnChar (sep : Char) : List Char → List (List Char)
  | [] => [[]]
  | c :: rest =>
    let r := splitOnChar sep rest
    if c == sep then [] :: r
    else
      match r with
      | [] => [[c]]
      | h :: t => (c :: h) :: t

/-- JavaScript `s.split(sep)` for a one-character separator. -/
def strSplit (s : String) (sep : Char) : List String :=
  (splitOnChar sep s.toList).map List.asString

/-- ASCII lower-casing of one character (`String.prototype.toLowerCase` on the
extensions handled here). -/
def asciiLowerChar (c : Char) : Char :=
  if Nat.ble 65 c.toNat && Nat.ble c.toNat 90 then Char.ofNat (c.toNat + 32) else c

/-- JavaScript `s.toLowerCase()` (ASCII range). -/
def strToLower (s : String) : String :=
  (s.toList.map asciiLowerChar).asString

/-- `path.join(a, b)`: a trailing `/` of `a` is dropped and the parts are
joined with a single `/` (no `./` normalisation, see the header comment). -/
def joinPath (a b : String) : String :=
  (if strEndsWith a "/" then a.dropRight 1 else a) ++ "/" ++ b

/-- `path.basename(filePath, ext)`: the basename with the suffix `ext`
removed when it is a proper suffix. -/
def basenameMinusExt (filePath : String) (ext : String) : String :=
  let base := basenameStr filePath
  if strEndsWith base ext && !(base == ext) then base.dropRight ext.toList.length
  else base

/-! ## Constants of bot/index.js -/

def UNZIP_DIR : String := "./unzipped/"

def SUPPORTED_PHOTO_TYPES : List String := ["jpg", "jpeg", "png", "gif", "webp", "tiff"]

/-- Note the last entry: the source file lists `.ts` with a leading dot,
unlike every other entry of either allow-list. -/
def SUPPORTED_VIDEO_TYPES : List String := ["mp4", "avi", "mov", "mkv", "webm", ".ts"]

/-! ## File classification -/

inductive FileClass where
  | photo
  | video
  | unsupported
deriving DecidableEq

/-- The classification decision shared by `sendFile` and
`getMultimediaFiles`: membership of `path.extname(file).slice(1)` in the two
allow-lists, photo list checked first. -/
def classifyFile (file : String) : FileClass :=
  let fileType := fileTypeOf file
  if SUPPORTED_PHOTO_TYPES.contains fileType then FileClass.photo
  else if SUPPORTED_VIDEO_TYPES.contains fileType then FileClass.video
  else FileClass.unsupported

/-! ## Effects, environment and data model -/

structure InlineButton where
  text : String
  callback_data : String
deriving DecidableEq

/-- One outbound operation of the bot, in program order.  `fsRemoveDir`
stands for a recursive `fs.rmSync`; it is part of the vocabulary so that its
absence from every trace of bot/index.js can be stated. -/
inductive Effect where
  | logMsg (text : String)
  | logSendFiles (dir : String)
  | apiSendMessage (chatId : Int) (text : String) (replyMarkup : List (List InlineButton))
  | apiSendPoll (chatId : Int) (question : String) (options : List String)
  | apiSendPhoto (chatId : Int) (photoPath : String)
  | apiSendVideo (chatId : Int) (videoPath : String)
  | apiDeleteMessage (chatId : Int) (messageId : Int)
  | apiGetFile (fileId : String)
  | fsMkdir (dirPath : String)
  | fsExtract (archivePath : String) (outputDir : String)
  | fsRemoveDir (dirPath : String)
deriving DecidableEq

/-- One entry of `fs.readdirSync` together with its `fs.statSync`
classification (entries are files or directories here). -/
structure DirEntry where
  name : String
  isDir : Bool
deriving DecidableEq

/-- The pure data the bot reads from the outside world: directory listings,
`getFile` results, `fs.existsSync`, the poll id the server mints for a
`sendPoll`, and the `path.relative` rendering used in one message. -/
structure Env where
  listDir : String → List DirEntry
  getFilePath : String → String
  dirExists : String → Bool
  newPollId : String
  relativePath : String → String

/-- One element of the `archive_polls` list in `LEFT_OVER_POLLS`. -/
structure PendingPoll where
  pollId : String
  filePath : String
  fileName : String
  chatId : Int
deriving DecidableEq

structure PollOption where
  text : String
  voter_count : Nat
deriving DecidableEq

structure Poll where
  id : String
  options : List PollOption
deriving DecidableEq

structure Document where
  file_name : String
  file_id : String
deriving DecidableEq

structure MediaSize where
  file_id : String
deriving DecidableEq

structure Chat where
  id : Int
deriving DecidableEq

structure TgMessage where
  chat : Chat
  text : Option String
  document : Option Document
  photo : Option (List MediaSize)
  video : Option (List MediaSize)
deriving DecidableEq

structure CallbackMessageRef where
  chat_id : Int
  message_id : Int
deriving DecidableEq

structure CallbackQuery where
  data : String
  message : CallbackMessageRef
deriving DecidableEq

structure Update where
  update_id : Int
  message : Option TgMessage
  poll : Option Poll
  callback_query : Option CallbackQuery
deriving DecidableEq

/-- Result of running one handler: the effects it performed, the correlation
store afterwards, and the message of an uncaught exception if one was
thrown. -/
structure HandlerResult where
  effects : List Effect
  store : List PendingPoll
  thrown : Option String
deriving DecidableEq

/-- `findIndex` followed by reading the element and `splice(idx, 1)`: locate
the first element satisfying `p` and return it with the remaining list. -/
def findRemove (p : α → Bool) : List α → Option (α × List α)
  | [] => none
  | x :: xs =>
    if p x then some (x, xs)
    else
      match findRemove p xs with
      | none => none
      | some (y, ys) => some (y, x :: ys)

/-! ## Directory walker and delivery -/

/-- `getMultimediaFiles(files)` of bot/index.js. -/
def getMultimediaFiles (files : List String) : List String :=
  files.filter (fun file =>
    let fileType := fileTypeOf file
    SUPPORTED_PHOTO_TYPES.contains fileType || SUPPORTED_VIDEO_TYPES.contains fileType)

/-- `sendFile(chatId, filePath)`: photo extensions go to `sendPhoto`, video
extensions to `sendVideo`, anything else gets a plain unsupported-type
message (no file bytes). -/
def sendFile (chatId : Int) (filePath : String) : List Effect :=
  let fileType := fileTypeOf filePath
  if SUPPORTED_PHOTO_TYPES.contains fileType then [Effect.apiSendPhoto chatId filePath]
  else if SUPPORTED_VIDEO_TYPES.contains fileType then [Effect.apiSendVideo chatId filePath]
  else
    [Effect.apiSendMessage chatId
      ("I don\x27t support sending files of type \"" ++ fileType ++ "\" [File: \"" ++
        basenameStr filePath ++ "\"].") []]

/-- The per-directory summary text built by `recursiveSendFiles`. -/
def dirSummaryMessage (dir : String) (files subDirs multimediaFiles : List String) : String :=
  let base :=
    "📁 `" ++ dir ++ "`\n\nThis directory has: \n- " ++
      toString files.length ++ " files 🗒️\n- " ++
      toString subDirs.length ++ " sub directories 📁\n- " ++
      toString multimediaFiles.length ++ " multimedia files 📷🎥"
  let withFiles :=
    if files.length != 0 then
      base ++ "\n\nExample Multimedia Files: \n" ++
        String.intercalate "\n" ((files.take 5).map (fun f => "- `" ++ f ++ "`"))
    else base
  if subDirs.length != 0 then
    withFiles ++ "\n\nExample Subdirectories: \n" ++
      String.intercalate "\n" ((subDirs.take 5).map (fun d => "- `" ++ d ++ "`"))
  else withFiles

/-- `askToSendMultimediaFiles(chatId, dir, fileName)`: the yes/no inline
keyboard whose Yes button carries `send_media_files:<dir>:<fileName>`. -/
def askToSendMultimediaFiles (chatId : Int) (dir fileName : String) : List Effect :=
  [Effect.apiSendMessage chatId
    ("Do you want to send the multimedia files from the folder `" ++ dir ++ "`?")
    [[{ text := "Yes", callback_data := "send_media_files:" ++ dir ++ ":" ++ fileName },
      { text := "No", callback_data := "ignore" }]]]

/-- `askToExploreSubdirectories(chatId, dir, fileName)`. -/
def askToExploreSubdirectories (chatId : Int) (dir fileName : String) : List Effect :=
  [Effect.apiSendMessage chatId
    ("Do you want to explore the subdirectories for this folder `" ++ dir ++ "`?")
    [[{ text := "Yes", callback_data := "explore_subdirs:" ++ dir ++ ":" ++ fileName },
      { text := "No", callback_data := "ignore" }]]]

/-- `recursiveSendFiles(dir, chatId, fileName)`: logs the visit, reports the
directory summary, and asks the two confirmation questions when applicable.
It does not descend into subdirectories itself. -/
def recursiveSendFiles (env : Env) (dir : String) (chatId : Int) (fileName : String) :
    List Effect :=
  let directoryItems := env.listDir dir
  let files := (directoryItems.filter (fun item => !item.isDir)).map (fun item => item.name)
  let subDirs := (directoryItems.filter (fun item => item.isDir)).map (fun item => item.name)
  let multimediaFiles := getMultimediaFiles files
  [Effect.logSendFiles dir,
   Effect.apiSendMessage chatId (dirSummaryMessage dir files subDirs multimediaFiles) []] ++
  (if multimediaFiles.length != 0 then askToSendMultimediaFiles chatId dir fileName else []) ++
  (if subDirs.length != 0 then askToExploreSubdirectories chatId dir fileName else [])

/-- `handleSendMediaFileResponse(chatId, dir, fileName)`: list the directory,
keep the non-directories, keep the multimedia ones, and `sendFile` each. -/
def handleSendMediaFileResponse (env : Env) (chatId : Int) (dir : String)
    (_fileName : String) : List Effect :=
  let files := ((env.listDir dir).filter (fun item => !item.isDir)).map (fun item => item.name)
  let multimediaFiles := getMultimediaFiles files
  multimediaFiles.flatMap (fun file => sendFile chatId (joinPath dir file))

/-- `handleExploreSubdirsResponse(chatId, dir, fileName)`: run
`recursiveSendFiles` on each immediate subdirectory. -/
def handleExploreSubdirsResponse (env : Env) (chatId : Int) (dir : String)
    (fileName : String) : List Effect :=
  let subDirs := ((env.listDir dir).filter (fun item => item.isDir)).map (fun item => item.name)
  subDirs.flatMap (fun subDir => recursiveSendFiles env (joinPath dir subDir) chatId fileName)

/-! ## Archive extraction and handlers -/

/-- `extractArchive(archiveFilePath, outputDir)`: dispatch on the lower-cased
extension; `.zip` and `.rar` extract, anything else throws. -/
def extractArchive (archiveFilePath : String) (outputDir : String) :
    Except String (List Effect) :=
  let fileExtension := strToLower (extnameStr archiveFilePath)
  if fileExtension == ".zip" then Except.ok [Effect.fsExtract archiveFilePath outputDir]
  else if fileExtension == ".rar" then Except.ok [Effect.fsExtract archiveFilePath outputDir]
  else Except.error "Unsupported file format. Only .zip and .rar are supported."

/-- `handleMessage(chatId, message)`. -/
def handleMessage (chatId : Int) (message : String) : List Effect :=
  if message == "/start" then
    [Effect.apiSendMessage chatId "Welcome to the bot! The bot is functional." []]
  else [Effect.apiSendMessage chatId "I don\x27t understand that command." []]

/-- `sendDownloadPathMessage(chatId, filePath)`. -/
def sendDownloadPathMessage (env : Env) (chatId : Int) (filePath : String) : List Effect :=
  let fileName := basenameStr filePath
  let relative := env.relativePath filePath
  [Effect.apiSendMessage chatId
    ("✅Downloaded `" ++ fileName ++ "` successfully on the server!\n\n\n- File Name: `" ++
      fileName ++ "`\n- Path: `" ++ relative ++ "`") []]

/-- `handleMultimedia(chatId, photo)`: download every media size and report
its path. -/
def handleMultimedia (env : Env) (chatId : Int) (media : List MediaSize) : List Effect :=
  media.flatMap (fun mediaSize =>
    Effect.apiGetFile mediaSize.file_id ::
      sendDownloadPathMessage env chatId (env.getFilePath mediaSize.file_id))

/-- `handleArchive(chatId, document)`: announce, download, report the path,
send the yes/no poll and push the pending interaction. -/
def handleArchive (env : Env) (store : List PendingPoll) (chatId : Int)
    (document : Document) : HandlerResult :=
  let filePath := env.getFilePath document.file_id
  { effects :=
      [Effect.apiSendMessage chatId
        ("Downloading the archive \"" ++ document.file_name ++ "\".") [],
       Effect.logMsg ("[DOWNLOAD] Start \"" ++ document.file_name ++ "\""),
       Effect.apiGetFile document.file_id,
       Effect.logMsg ("[DOWNLOAD] Completed \"" ++ document.file_name ++ "\"")] ++
      sendDownloadPathMessage env chatId filePath ++
      [Effect.apiSendPoll chatId
        "Would you like me to send the unzipped the files back to you?" ["Yes", "No"]],
    store := store ++ [{ pollId := env.newPollId, filePath := filePath,
                         fileName := document.file_name, chatId := chatId }],
    thrown := none }

/-- `handleDocument(chatId, document)`: archives (names ending in `.zip` or
`.rar`) go to `handleArchive`, everything else gets the unsupported reply. -/
def handleDocument (env : Env) (store : List PendingPoll) (chatId : Int)
    (document : Document) : HandlerResult :=
  if strEndsWith document.file_name ".zip" || strEndsWith document.file_name ".rar" then
    handleArchive env store chatId document
  else
    { effects := [Effect.apiSendMessage chatId
        "I currently don\x27t support this file type!" []],
      store := store, thrown := none }

/-- `handlePollResponse(poll)`: look the poll id up in the store (logging and
returning when absent), remove the entry, find the option with a positive
voter count (reading `.text` of `undefined` — a thrown TypeError — when no
option has one), and either extract-and-walk or close out. -/
def handlePollResponse (env : Env) (store : List PendingPoll) (poll : Poll) :
    HandlerResult :=
  match findRemove (fun p => p.pollId == poll.id) store with
  | none =>
    { effects := [Effect.logMsg ("Poll not found: " ++ poll.id)],
      store := store, thrown := none }
  | some (entry, remaining) =>
    let logReceived :=
      [Effect.logMsg ("[POLL] Received response for \"" ++ entry.fileName ++
        "\" | Path: \"" ++ entry.filePath ++ "\"")]
    match poll.options.find? (fun option => Nat.blt 0 option.voter_count) with
    | none =>
      { effects := logReceived, store := remaining,
        thrown := some "TypeError: Cannot read properties of undefined (reading \x27text\x27)" }
    | some votedOption =>
      if votedOption.text == "Yes" then
        let extension := extnameStr entry.filePath
        let unzipDir := joinPath UNZIP_DIR (basenameMinusExt entry.filePath extension)
        let mkdirEffects := if env.dirExists unzipDir then [] else [Effect.fsMkdir unzipDir]
        let startLog :=
          [Effect.logMsg ("[UNZIP] Start \"" ++ entry.fileName ++ "\" in \"" ++ unzipDir ++ "\"")]
        match extractArchive entry.filePath unzipDir with
        | Except.error e =>
          { effects := logReceived ++ mkdirEffects ++ startLog,
            store := remaining, thrown := some e }
        | Except.ok extractEffects =>
          { effects := logReceived ++ mkdirEffects ++ startLog ++ extractEffects ++
              [Effect.logMsg ("[UNZIP] Completed \"" ++ entry.fileName ++ "\"")] ++
              recursiveSendFiles env unzipDir entry.chatId entry.fileName,
            store := remaining, thrown := none }
      else
        { effects := logReceived ++
            [Effect.apiSendMessage entry.chatId
              ("Process completed for the file \"" ++ entry.fileName ++ "\".") []],
          store := remaining, thrown := none }

/-- `handleCallbackQuery(callbackData)`: delete the prompt message, then
dispatch on the callback payload `<action>:<dir>:<fileName>`. -/
def handleCallbackQuery (env : Env) (callbackData : CallbackQuery) : List Effect :=
  let message := callbackData.data
  let chatId := callbackData.message.chat_id
  let deleted := [Effect.apiDeleteMessage chatId callbackData.message.message_id]
  if message == "ignore" then deleted
  else if strStartsWith message "send_media_files" then
    let parts := strSplit message ':'
    deleted ++ handleSendMediaFileResponse env chatId (parts.getD 1 "") (parts.getD 2 "")
  else if strStartsWith message "explore_subdirs" then
    let parts := strSplit message ':'
    deleted ++ handleExploreSubdirsResponse env chatId (parts.getD 1 "") (parts.getD 2 "")
  else deleted ++ [Effect.logMsg "Unknown callback query"]

/-- `handleUpdate(update)`: route by update shape, in the field
order (photo, video, document, text inside a message; then poll; then
callback query). -/
def handleUpdate (env : Env) (store : List PendingPoll) (update : Update) : HandlerResult :=
  match update.message with
  | some m =>
    let chatId := m.chat.id
    match m.photo with
    | some photo => { effects := handleMultimedia env chatId photo, store := store, thrown := none }
    | none =>
      match m.video with
      | some video => { effects := handleMultimedia env chatId video, store := store, thrown := none }
      | none =>
        match m.document with
        | some document => handleDocument env store chatId document
        | none =>
          match m.text with
          | some text => { effects := handleMessage chatId text, store := store, thrown := none }
          | none =>
            { effects := [Effect.apiSendMessage chatId "I don\x27t understand that message." [],
                          Effect.logMsg "Unknown message"],
              store := store, thrown := none }
  | none =>
    match update.poll with
    | some poll => handlePollResponse env store poll
    | none =>
      match update.callback_query with
      | some cq => { effects := handleCallbackQuery env cq, store := store, thrown := none }
      | none => { effects := [Effect.logMsg "Unknown update"], store := store, thrown := none }

/-! ## The per-batch body of the dispatch loop -/

/-- State of the dispatch loop while it walks one `getUpdates` batch.
`offsetTrace` records the successive values assigned to `offset` (one per
update reached), and `aborted` records that an exception escaped the
per-update catch to the outer catch of the `while` loop, abandoning the rest
of the batch. -/
structure BatchState where
  offset : Int
  store : List PendingPoll
  effects : List Effect
  offsetTrace : List Int
  aborted : Bool
deriving DecidableEq

/-- The `for (const update of updates)` body: set `offset = update.update_id
+ 1`, run `handleUpdate` under the per-update try/catch.  The catch logs and
then sends a failure notice to `update.message.chat.id`; when the update has
no `message` that dereference itself throws, reaching the outer catch and
ending the batch. -/
def processBatch (env : Env) : BatchState → List Update → BatchState
  | st, [] => st
  | st, update :: rest =>
    let newOffset := update.update_id + 1
    let r := handleUpdate env st.store update
    match r.thrown with
    | none =>
      processBatch env
        { offset := newOffset, store := r.store,
          effects := st.effects ++ r.effects,
          offsetTrace := st.offsetTrace ++ [newOffset],
          aborted := st.aborted } rest
    | some errMsg =>
      let logged := st.effects ++ r.effects ++
        [Effect.logMsg ("Error handling update: " ++ errMsg)]
      match update.message with
      | some m =>
        processBatch env
          { offset := newOffset, store := r.store,
            effects := logged ++
              [Effect.apiSendMessage m.chat.id
                ("An error occured while processing the update.\n\nMessage: " ++ errMsg) []],
            offsetTrace := st.offsetTrace ++ [newOffset],
            aborted := st.aborted } rest
      | none =>
        { offset := newOffset, store := r.store,
          effects := logged ++
            [Effect.logMsg
              "Error recieving updates: Cannot read properties of undefined (reading \x27chat\x27)"],
          offsetTrace := st.offsetTrace ++ [newOffset],
          aborted := true }

/-- One iteration of the steady-state dispatch loop over a delivered batch,
started from a cursor and store. -/
def runBatch (env : Env) (offset : Int) (store : List PendingPoll)
    (updates : List Update) : BatchState :=
  processBatch env
    { offset := offset, store := store, effects := [], offsetTrace := [], aborted := false }
    updates

/-! ## Transport-level send helpers (presence and absence of try/catch) -/

structure PollRef where
  id : String
deriving DecidableEq

structure SendMessageResponse where
  message_id : Int
deriving DecidableEq

structure SendPollResponse where
  poll : PollRef
deriving DecidableEq

structure SendMediaResponse where
  message_id : Int
deriving DecidableEq

/-- `sendMessage`: the `client.post('/sendMessage', ...)` outcome is consumed
under a try/catch — a transport error is logged and the sentinel `-1` is
returned instead of propagating. -/
def sendMessage (post : Except String SendMessageResponse) : Int :=
  match post with
  | Except.ok response => response.message_id
  | Except.error _error => -1

/-- `sendPoll`: no try/catch — the poll id is extracted on success and a
transport error propagates to the caller. -/
def sendPoll (post : Except String SendPollResponse) : Except String String :=
  match post with
  | Except.ok response => Except.ok response.poll.id
  | Except.error e => Except.error e

/-- `sendPhoto`: no try/catch — a transport error propagates. -/
def sendPhoto (post : Except String SendMediaResponse) : Except String Int :=
  match post with
  | Except.ok response => Except.ok response.message_id
  | Except.error e => Except.error e

/-- `sendVideo`: no try/catch — a transport error propagates. -/
def sendVideo (post : Except String SendMediaResponse) : Except String Int :=
  match post with
  | Except.ok response => Except.ok response.message_id
  | Except.error e => Except.error e

/-! ## Trace observations -/

/-- Is this effect the recursive deletion of a directory? -/
def isFsRemoveDir : Effect → Bool
  | Effect.fsRemoveDir _ => true
  | _ => false

/-- Is this effect a chat message mentioning completion? -/
def mentionsCompleted : Effect → Bool
  | Effect.apiSendMessage _ text _ =>
    (strSplit text 'c').any (fun piece => strStartsWith piece "ompleted") ||
      (strSplit text 'C').any (fun piece => strStartsWith piece "ompleted")
  | _ => false

def isApiSendPhoto : Effect → Bool
  | Effect.apiSendPhoto _ _ => true
  | _ => false

def isApiSendVideo : Effect → Bool
  | Effect.apiSendVideo _ _ => true
  | _ => false

/-- The directories actually entered by the walker: the `[SEND FILES]` log
emitted at the top of `recursiveSendFiles`. -/
def visitedDirs (effects : List Effect) : List String :=
  effects.filterMap (fun e =>
    match e with
    | Effect.logSendFiles d => some d
    | _ => none)

/-! ## Concrete fixtures used by witnesses and counterexamples -/

/-- An environment with an empty filesystem view. -/
def envW : Env :=
  { listDir := fun _ => [], getFilePath := fun _ => "./file.zip",
    dirExists := fun _ => false, newPollId := "pNew", relativePath := fun s => s }

/-- A store holding one pending archive poll with token `p1`. -/
def storeW : List PendingPoll := [⟨"p1", "./file.zip", "file.zip", 5⟩]

/-- A response to poll `p1` in which no option has a positive voter count. -/
def pollZeroW : Poll := ⟨"p1", [⟨"Yes", 0⟩, ⟨"No", 0⟩]⟩

/-- A response to poll `p1` voting Yes. -/
def pollYesW : Poll := ⟨"p1", [⟨"Yes", 1⟩, ⟨"No", 0⟩]⟩

/-- An update carrying the zero-vote poll response (no `message` field). -/
def u1W : Update := ⟨10, none, some pollZeroW, none⟩

/-- A later `/start` message update from chat 5. -/
def u2W : Update :=
  ⟨20, some ⟨⟨5⟩, some "/start", none, none, none⟩, none, none⟩

/-- A store holding a pending archive poll for `photos.zip` with token `p2`. -/
def store4W : List PendingPoll := [⟨"p2", "./photos.zip", "photos.zip", 7⟩]

/-- A Yes response to poll `p2`. -/
def poll4W : Poll := ⟨"p2", [⟨"Yes", 1⟩, ⟨"No", 0⟩]⟩

/-- An environment in which directory `d` holds `a.png` and `notes.txt`. -/
def env6W : Env :=
  { listDir := fun d => if d == "d" then [⟨"a.png", false⟩, ⟨"notes.txt", false⟩] else [],
    getFilePath := fun _ => "./file.zip", dirExists := fun _ => false,
    newPollId := "pNew", relativePath := fun s => s }

/-- An environment with two nesting levels under the extraction root:
`root` contains `sub1` (and a file), and `sub1` contains `sub2`. -/
def envC9 : Env :=
  { listDir := fun d =>
      if d == "./unzipped/root" then [⟨"sub1", true⟩, ⟨"a.png", false⟩]
      else if d == "./unzipped/root/sub1" then [⟨"sub2", true⟩]
      else [],
    getFilePath := fun _ => "./root.zip", dirExists := fun _ => false,
    newPollId := "pNew", relativePath := fun s => s }

/-- The confirmation callback for exploring the subdirectories of `root`. -/
def cqC9 : CallbackQuery := ⟨"explore_subdirs:./unzipped/root:root.zip", ⟨7, 3⟩⟩

/-! ## Helper lemmas -/

theorem takeWhile_append_eq {α : Type} {p : α → Bool} {y : α} (xs ys : List α)
    (hx : ∀ x ∈ xs, p x = true) (hy : p y = false) :
    (xs ++ y :: ys).takeWhile p = xs := by
  induction xs with
  | nil => simp [List.takeWhile_cons, hy]
  | cons a t ih =>
    have ha : p a = true := hx a (List.mem_cons_self a t)
    simp [List.takeWhile_cons, ha, ih (fun x hx' => hx x (List.mem_cons_of_mem a hx'))]

theorem takeWhile_all_eq {α : Type} {p : α → Bool} (l : List α)
    (h : ∀ x ∈ l, p x = true) : l.takeWhile p = l := by
  induction l with
  | nil => rfl
  | cons a t ih =>
    have ha : p a = true := h a (List.mem_cons_self a t)
    simp [List.takeWhile_cons, ha, ih (fun x hx => h x (List.mem_cons_of_mem a hx))]

theorem basenameChars_append (a b : List Char)
    (hb : ∀ c ∈ b, (c == '/') = false) :
    basenameChars (a ++ '/' :: b) = b := by
  unfold basenameChars
  have hrev : (a ++ '/' :: b).reverse = b.reverse ++ '/' :: a.reverse := by
    simp [List.reverse_append]
  rw [hrev, takeWhile_append_eq b.reverse a.reverse
    (fun x hx => by simp [hb x (List.mem_reverse.mp hx)])
    (by simp), List.reverse_reverse]

theorem basenameChars_no_slash (b : List Char)
    (hb : ∀ c ∈ b, (c == '/') = false) :
    basenameChars b = b := by
  unfold basenameChars
  rw [takeWhile_all_eq b.reverse (fun x hx => by simp [hb x (List.mem_reverse.mp hx)]),
    List.reverse_reverse]

theorem toList_joinPath (dir name : String) :
    (joinPath dir name).toList =
      (if strEndsWith dir "/" then dir.dropRight 1 else dir).toList ++ '/' :: name.toList := by
  unfold joinPath
  cases h : strEndsWith dir "/" <;>
    simp [h, String.toList, String.data_append]

theorem fileTypeOf_joinPath (dir name : String)
    (h : ∀ c ∈ name.toList, (c == '/') = false) :
    fileTypeOf (joinPath dir name) = fileTypeOf name := by
  unfold fileTypeOf
  rw [toList_joinPath, basenameChars_append _ _ h, basenameChars_no_slash _ h]

theorem findRemove_eq_none {α : Type} {p : α → Bool} {l : List α} :
    findRemove p l = none ↔ ∀ x ∈ l, p x = false := by
  induction l with
  | nil => simp [findRemove]
  | cons x xs ih =>
    cases hx : p x with
    | true =>
      simp only [findRemove, hx, if_true]
      constructor
      · intro h; exact absurd h (by simp)
      · intro hall
        have := hall x (List.mem_cons_self x xs)
        rw [hx] at this
        exact absurd this (by simp)
    | false =>
      simp only [findRemove, hx, Bool.false_eq_true, if_false]
      cases h : findRemove p xs with
      | none =>
        simp only []
        constructor
        · intro _ y hy
          rcases List.mem_cons.mp hy with rfl | hy'
          · exact hx
          · exact ih.mp h y hy'
        · intro _; trivial
      | some pr =>
        simp only []
        constructor
        · intro hc; exact absurd hc (by simp)
        · intro hall
          have hnone : findRemove p xs = none :=
            ih.mpr (fun y hy => hall y (List.mem_cons_of_mem x hy))
          rw [h] at hnone
          exact absurd hnone (by simp)

theorem findRemove_some_countP {α : Type} {p : α → Bool} {l : List α} {x : α}
    {rest : List α} (h : findRemove p l = some (x, rest)) :
    p x = true ∧ rest.countP p + 1 = l.countP p := by
  induction l generalizing x rest with
  | nil => simp [findRemove] at h
  | cons y ys ih =>
    by_cases hy : p y = true
    · simp only [findRemove, hy, if_true] at h
      obtain ⟨rfl, rfl⟩ := Prod.mk.injEq .. ▸ (Option.some.injEq .. ▸ h)
      exact ⟨hy, by rw [List.countP_cons_of_pos p ys hy]⟩
    · have hy' : p y = false := Bool.eq_false_iff.mpr hy
      simp only [findRemove, hy', Bool.false_eq_true, if_false] at h
      cases hrec : findRemove p ys with
      | none => rw [hrec] at h; simp at h
      | some pr =>
        obtain ⟨z, zs⟩ := pr
        rw [hrec] at h
        simp only [Option.some.injEq, Prod.mk.injEq] at h
        obtain ⟨rfl, rfl⟩ := h
        obtain ⟨hz, hcount⟩ := ih hrec
        refine ⟨hz, ?_⟩
        rw [List.countP_cons_of_neg p zs (by simp [hy']),
          List.countP_cons_of_neg p ys (by simp [hy'])]
        exact hcount

theorem handlePollResponse_not_found (env : Env) {store : List PendingPoll} {poll : Poll}
    (h : findRemove (fun p => p.pollId == poll.id) store = none) :
    handlePollResponse env store poll =
      { effects := [Effect.logMsg ("Poll not found: " ++ poll.id)],
        store := store, thrown := none } := by
  simp only [handlePollResponse, h]

theorem handlePollResponse_store_found (env : Env) {store : List PendingPoll}
    {poll : Poll} {entry : PendingPoll} {remaining : List PendingPoll}
    (h : findRemove (fun p => p.pollId == poll.id) store = some (entry, remaining)) :
    (handlePollResponse env store poll).store = remaining := by
  simp only [handlePollResponse, h]
  cases hf : poll.options.find? (fun option => Nat.blt 0 option.voter_count) with
  | none => rfl
  | some votedOption =>
    simp only []
    cases hv : votedOption.text == "Yes" with
    | false => simp [hv]
    | true =>
      simp only [hv, if_true]
      cases he : extractArchive entry.filePath
          (joinPath UNZIP_DIR (basenameMinusExt entry.filePath (extnameStr entry.filePath))) with
      | error e => simp [he]
      | ok extractEffects => simp [he]

theorem extractArchive_ok {a o : String} {l : List Effect}
    (h : extractArchive a o = Except.ok l) : l = [Effect.fsExtract a o] := by
  simp only [extractArchive] at h
  split at h
  · exact (Except.ok.injEq .. ▸ h).symm
  · split at h
    · exact (Except.ok.injEq .. ▸ h).symm
    · exact absurd h (by simp)

theorem recursiveSendFiles_no_remove (env : Env) (dir : String) (chatId : Int)
    (fileName : String) :
    (recursiveSendFiles env dir chatId fileName).all (fun e => !(isFsRemoveDir e)) = true := by
  simp only [recursiveSendFiles, List.all_append, Bool.and_eq_true]
  refine ⟨⟨rfl, ?_⟩, ?_⟩ <;> split <;> rfl

theorem visitedDirs_append (l1 l2 : List Effect) :
    visitedDirs (l1 ++ l2) = visitedDirs l1 ++ visitedDirs l2 :=
  List.filterMap_append l1 l2 _

theorem visitedDirs_ite (c : Prop) [Decidable c] (l1 l2 : List Effect) :
    visitedDirs (if c then l1 else l2) = if c then visitedDirs l1 else visitedDirs l2 := by
  split <;> rfl

theorem visitedDirs_recursiveSendFiles (env : Env) (dir : String) (chatId : Int)
    (fileName : String) :
    visitedDirs (recursiveSendFiles env dir chatId fileName) = [dir] := by
  simp only [recursiveSendFiles]
  rw [visitedDirs_append, visitedDirs_append, visitedDirs_ite, visitedDirs_ite]
  have h1 : visitedDirs (askToSendMultimediaFiles chatId dir fileName) = [] := rfl
  have h2 : visitedDirs (askToExploreSubdirectories chatId dir fileName) = [] := rfl
  have h3 : visitedDirs [Effect.logSendFiles dir,
      Effect.apiSendMessage chatId (dirSummaryMessage dir
        (((env.listDir dir).filter (fun item => !item.isDir)).map (fun item => item.name))
        (((env.listDir dir).filter (fun item => item.isDir)).map (fun item => item.name))
        (getMultimediaFiles
          (((env.listDir dir).filter (fun item => !item.isDir)).map (fun item => item.name)))) []] =
      [dir] := rfl
  rw [h1, h2, h3]
  split <;> split <;> rfl

theorem visitedDirs_flatMap_single {α : Type} {f : α → List Effect} {g : α → String}
    (l : List α) (h : ∀ x ∈ l, visitedDirs (f x) = [g x]) :
    visitedDirs (l.flatMap f) = l.map g := by
  induction l with
  | nil => rfl
  | cons a t ih =>
    rw [List.flatMap_cons, visitedDirs_append, h a (List.mem_cons_self a t),
      ih (fun x hx => h x (List.mem_cons_of_mem a hx)), List.map_cons]
    rfl

theorem flatMap_length_one {α β : Type} {f : α → List β} (l : List α)
    (h : ∀ x ∈ l, (f x).length = 1) : (l.flatMap f).length = l.length := by
  induction l with
  | nil => rfl
  | cons a t ih =>
    rw [List.flatMap_cons, List.length_append, h a (List.mem_cons_self a t),
      ih (fun x hx => h x (List.mem_cons_of_mem a hx))]
    simp [Nat.add_comm]

theorem getLastD_mem_or {α : Type} (l : List α) (d : α) :
    List.getLastD l d ∈ l ∨ List.getLastD l d = d := by
  induction l generalizing d with
  | nil => right; rfl
  | cons a t ih =>
    rw [List.getLastD_cons]
    rcases ih a with h | h
    · left; exact List.mem_cons_of_mem a h
    · left; rw [h]; exact List.mem_cons_self a t

theorem mem_getMultimediaFiles {files : List String} {file : String}
    (h : file ∈ getMultimediaFiles files) :
    (SUPPORTED_PHOTO_TYPES.contains (fileTypeOf file) ||
      SUPPORTED_VIDEO_TYPES.contains (fileTypeOf file)) = true ∧ file ∈ files := by
  unfold getMultimediaFiles at h
  have := List.mem_filter.mp h
  exact ⟨this.2, this.1⟩

theorem sendFile_multimedia {chatId : Int} {p : String}
    (h : (SUPPORTED_PHOTO_TYPES.contains (fileTypeOf p) ||
      SUPPORTED_VIDEO_TYPES.contains (fileTypeOf p)) = true) :
    (sendFile chatId p).all (fun e => isApiSendPhoto e || isApiSendVideo e) = true ∧
    (sendFile chatId p).length = 1 := by
  simp only [sendFile]
  cases h1 : SUPPORTED_PHOTO_TYPES.contains (fileTypeOf p) with
  | true => exact ⟨rfl, rfl⟩
  | false =>
    have h2 : SUPPORTED_VIDEO_TYPES.contains (fileTypeOf p) = true := by
      rw [h1] at h
      simpa using h
    rw [h2]
    exact ⟨rfl, rfl⟩

theorem extnameOfBase_shape (b : List Char) :
    extnameOfBase b = [] ∨
    ∃ cs, extnameOfBase b = '.' :: cs ∧ ∀ c ∈ cs, (c == '.') = false := by
  simp only [extnameOfBase]
  split
  · split
    · left; rfl
    · right
      refine ⟨_, rfl, ?_⟩
      intro c hc
      have hc' := List.mem_takeWhile_imp (List.mem_reverse.mp hc)
      simpa using hc'
  · left; rfl

theorem fileTypeOf_ne_dotts (s : String) : fileTypeOf s ≠ ".ts" := by
  unfold fileTypeOf
  rcases extnameOfBase_shape (basenameChars s.toList) with h | ⟨cs, h, hcs⟩ <;> rw [h]
  · intro hcontra
    exact absurd (String.ext_iff.mp hcontra) (by decide)
  · intro hcontra
    have hdata : cs = ['.', 't', 's'] := String.ext_iff.mp hcontra
    have : (('.' : Char) == '.') = false := hcs '.' (by rw [hdata]; exact List.mem_cons_self ..)
    exact absurd this (by simp)

theorem processBatch_spec (env : Env) (updates : List Update) :
    ∀ st : BatchState, ∃ k, k ≤ updates.length ∧
      (processBatch env st updates).offsetTrace =
        st.offsetTrace ++ (updates.take k).map (fun u => u.update_id + 1) ∧
      (processBatch env st updates).offset =
        List.getLastD ((updates.take k).map (fun u => u.update_id + 1)) st.offset := by
  induction updates with
  | nil =>
    intro st
    exact ⟨0, Nat.le_refl 0, by simp [processBatch], by simp [processBatch]⟩
  | cons u rest ih =>
    intro st
    simp only [processBatch]
    cases hthrown : (handleUpdate env st.store u).thrown with
    | none =>
      obtain ⟨k, hk, htrace, hoffset⟩ := ih
        { offset := u.update_id + 1, store := (handleUpdate env st.store u).store,
          effects := st.effects ++ (handleUpdate env st.store u).effects,
          offsetTrace := st.offsetTrace ++ [u.update_id + 1], aborted := st.aborted }
      refine ⟨k + 1, Nat.succ_le_succ hk, ?_, ?_⟩
      · rw [htrace]
        simp [List.take_succ_cons, List.append_assoc]
      · rw [List.take_succ_cons, List.map_cons, List.getLastD_cons]
        exact hoffset
    | some errMsg =>
      cases hmsg : u.message with
      | some m =>
        obtain ⟨k, hk, htrace, hoffset⟩ := ih
          { offset := u.update_id + 1, store := (handleUpdate env st.store u).store,
            effects := (st.effects ++ (handleUpdate env st.store u).effects ++
              [Effect.logMsg ("Error handling update: " ++ errMsg)]) ++
              [Effect.apiSendMessage m.chat.id
                ("An error occured while processing the update.\n\nMessage: " ++ errMsg) []],
            offsetTrace := st.offsetTrace ++ [u.update_id + 1], aborted := st.aborted }
        refine ⟨k + 1, Nat.succ_le_succ hk, ?_, ?_⟩
        · rw [htrace]
          simp [List.take_succ_cons, List.append_assoc]
        · rw [List.take_succ_cons, List.map_cons, List.getLastD_cons]
          exact hoffset
      | none =>
        refine ⟨1, Nat.succ_le_succ (Nat.zero_le _), ?_, ?_⟩
        · simp [List.take_succ_cons]
        · simp [List.take_succ_cons, List.getLastD_cons]

/-! ## Claim theorems -/

/-- Claim C1: for every batch processed by the dispatch loop, the cursor is
set to `update.update_id + 1` for each update before its handler runs, so
across loop iterations the cursor is monotonically non-decreasing regardless
of whether any handler succeeds or throws, assuming the remote delivers
updates in non-decreasing `update_id` order at or past the current cursor.
The successive cursor values (initial cursor followed by the recorded trace)
are pairwise non-decreasing, and the final cursor is at least the initial
one, for every environment and store (hence for every handler outcome). -/
theorem C1_cursor_monotone (env : Env) (offset : Int) (store : List PendingPoll)
    (updates : List Update)
    (hsorted : updates.Pairwise (fun a b => a.update_id ≤ b.update_id))
    (hge : ∀ u ∈ updates, offset ≤ u.update_id) :
    List.Pairwise (fun a b => a ≤ b)
      (offset :: (runBatch env offset store updates).offsetTrace) ∧
    offset ≤ (runBatch env offset store updates).offset := by
  obtain ⟨k, hk, htrace, hoffset⟩ :=
    processBatch_spec env updates
      { offset := offset, store := store, effects := [], offsetTrace := [], aborted := false }
  have hmem : ∀ b ∈ (updates.take k).map (fun u => u.update_id + 1), offset ≤ b := by
    intro b hb
    obtain ⟨u, hu, rfl⟩ := List.mem_map.mp hb
    have := hge u (List.mem_of_mem_take hu)
    omega
  constructor
  · rw [runBatch, htrace]
    dsimp only
    rw [List.nil_append]
    refine List.Pairwise.cons hmem ?_
    rw [List.pairwise_map]
    refine List.Pairwise.imp ?_ (hsorted.sublist (List.take_sublist k updates))
    intro a b hab
    omega
  · rw [runBatch, hoffset]
    dsimp only
    rcases getLastD_mem_or ((updates.take k).map (fun u => u.update_id + 1)) offset with
      hmem' | heq
    · exact hmem _ hmem'
    · rw [heq]

/-- Witness for C1 on a concrete batch in which the first handler throws (a
registered poll response with no positive vote) and the second is a plain
message: the cursor trace is still monotone. -/
theorem C1_cursor_monotone_witness :
    List.Pairwise (fun a b => a ≤ b)
      (0 :: (runBatch envW 0 storeW [u1W, u2W]).offsetTrace) ∧
    (0 : Int) ≤ (runBatch envW 0 storeW [u1W, u2W]).offset :=
  C1_cursor_monotone envW 0 storeW [u1W, u2W] (by decide) (by decide)

/-- Claim C2 counterexample: in the batch `[u1W, u2W]`, the handler of `u1W`
(a poll update, hence without a `message`) throws; the catch block then
dereferences `update.message.chat.id`, which itself throws, so the batch is
aborted: the dispatch does not continue with `u2W` (its offset 21 is never
recorded and its `/start` reply is never sent), refuting the claim that no
handler exception skips the remaining updates of the batch. -/
theorem C2_counterexample :
    (runBatch envW 0 storeW [u1W, u2W]).aborted = true ∧
    (runBatch envW 0 storeW [u1W, u2W]).offsetTrace = [11] ∧
    (runBatch envW 0 storeW [u1W, u2W]).effects.all
      (fun e => !(e == Effect.apiSendMessage 5 "Welcome to the bot! The bot is functional." [])) =
      true := by
  refine ⟨by decide, by decide, by decide⟩

/-- Claim C2 (amended): when an update whose handler throws carries a
`message`, the dispatch loop logs the error, sends the failure notification
to that chat and continues with the rest of the batch; when the update has
no `message` (poll or callback updates), evaluating `update.message.chat.id`
in the catch block itself throws, the outer catch logs it, and the remaining
updates of the batch are skipped (the cursor having advanced only past the
throwing update). -/
theorem C2_amended (env : Env) (st : BatchState) (update : Update)
    (rest : List Update) (e : String)
    (hthrow : (handleUpdate env st.store update).thrown = some e) :
    (∀ m, update.message = some m →
      processBatch env st (update :: rest) =
        processBatch env
          { offset := update.update_id + 1,
            store := (handleUpdate env st.store update).store,
            effects := (st.effects ++ (handleUpdate env st.store update).effects ++
              [Effect.logMsg ("Error handling update: " ++ e)]) ++
              [Effect.apiSendMessage m.chat.id
                ("An error occured while processing the update.\n\nMessage: " ++ e) []],
            offsetTrace := st.offsetTrace ++ [update.update_id + 1],
            aborted := st.aborted } rest) ∧
    (update.message = none →
      processBatch env st (update :: rest) =
        { offset := update.update_id + 1,
          store := (handleUpdate env st.store update).store,
          effects := (st.effects ++ (handleUpdate env st.store update).effects ++
            [Effect.logMsg ("Error handling update: " ++ e)]) ++
            [Effect.logMsg
              "Error recieving updates: Cannot read properties of undefined (reading \x27chat\x27)"],
          offsetTrace := st.offsetTrace ++ [update.update_id + 1],
          aborted := true }) := by
  constructor
  · intro m hm
    simp only [processBatch, hthrow, hm]
  · intro hm
    simp only [processBatch, hthrow, hm]

/-- Witness for C2 (amended), instantiated at the chatless throwing update
`u1W`: the batch is aborted with exactly the logged errors. -/
theorem C2_amended_witness :
    processBatch envW
      { offset := 0, store := storeW, effects := [], offsetTrace := [], aborted := false }
      [u1W] =
      { offset := 11, store := [],
        effects :=
          [Effect.logMsg "[POLL] Received response for \"file.zip\" | Path: \"./file.zip\"",
           Effect.logMsg
             "Error handling update: TypeError: Cannot read properties of undefined (reading \x27text\x27)",
           Effect.logMsg
             "Error recieving updates: Cannot read properties of undefined (reading \x27chat\x27)"],
        offsetTrace := [11], aborted := true } := by
  exact (C2_amended envW
    { offset := 0, store := storeW, effects := [], offsetTrace := [], aborted := false }
    u1W [] "TypeError: Cannot read properties of undefined (reading \x27text\x27)"
    (by decide)).2 rfl

/-- Claim C3: resolving a pending interaction removes its entry in the same
step, so (given that the token occurs at most once in the store, the
uniqueness invariant of the data model) a second resolve of the same token
finds nothing: it only logs `Poll not found`, sends no user-facing message,
stores nothing and leaves the store unchanged.  Likewise resolving a token
that was never registered only logs, with the store unchanged. -/
theorem C3_resolve_once (env env2 : Env) (store : List PendingPoll) (poll : Poll)
    (hcount : store.countP (fun p => p.pollId == poll.id) ≤ 1) :
    handlePollResponse env2 (handlePollResponse env store poll).store poll =
      { effects := [Effect.logMsg ("Poll not found: " ++ poll.id)],
        store := (handlePollResponse env store poll).store, thrown := none } ∧
    ((∀ p ∈ store, (p.pollId == poll.id) = false) →
      handlePollResponse env store poll =
        { effects := [Effect.logMsg ("Poll not found: " ++ poll.id)],
          store := store, thrown := none }) := by
  constructor
  · have hzero : ((handlePollResponse env store poll).store).countP
        (fun p => p.pollId == poll.id) = 0 := by
      cases h : findRemove (fun p => p.pollId == poll.id) store with
      | none =>
        have hstore : (handlePollResponse env store poll).store = store := by
          simp only [handlePollResponse, h]
        rw [hstore, List.countP_eq_zero]
        intro a ha
        simp [findRemove_eq_none.mp h a ha]
      | some pr =>
        obtain ⟨entry, remaining⟩ := pr
        rw [handlePollResponse_store_found env h]
        have hc := findRemove_some_countP h
        omega
    have hnone : findRemove (fun p => p.pollId == poll.id)
        (handlePollResponse env store poll).store = none := by
      rw [findRemove_eq_none]
      intro x hx
      have := List.countP_eq_zero.mp hzero x hx
      simpa using this
    exact handlePollResponse_not_found env2 hnone
  · intro hall
    exact handlePollResponse_not_found env (findRemove_eq_none.mpr hall)

/-- Witness for C3: after the Yes response to `p1` is resolved, resolving
`p1` again yields the not-found outcome. -/
theorem C3_resolve_once_witness :
    handlePollResponse envW (handlePollResponse envW storeW pollYesW).store pollYesW =
      { effects := [Effect.logMsg ("Poll not found: " ++ pollYesW.id)],
        store := (handlePollResponse envW storeW pollYesW).store, thrown := none } :=
  (C3_resolve_once envW envW storeW pollYesW (by decide)).1

/-- Claim C4 counterexample: a concrete confirmed (Yes) archive poll.  The
handler completes without throwing; its full effect trace is extraction
followed by the walker summary of the (empty) extraction directory — it
contains no recursive directory deletion and no completion message to the
chat.  The claim that the temporary extraction directory is deleted and a
completion message is sent after traversal is false on this run. -/
theorem C4_counterexample :
    handlePollResponse envW store4W poll4W =
      { effects :=
          [Effect.logMsg "[POLL] Received response for \"photos.zip\" | Path: \"./photos.zip\"",
           Effect.fsMkdir "./unzipped/photos",
           Effect.logMsg "[UNZIP] Start \"photos.zip\" in \"./unzipped/photos\"",
           Effect.fsExtract "./photos.zip" "./unzipped/photos",
           Effect.logMsg "[UNZIP] Completed \"photos.zip\"",
           Effect.logSendFiles "./unzipped/photos",
           Effect.apiSendMessage 7
             "📁 `./unzipped/photos`\n\nThis directory has: \n- 0 files 🗒️\n- 0 sub directories 📁\n- 0 multimedia files 📷🎥"
             []],
        store := [], thrown := none } ∧
    (handlePollResponse envW store4W poll4W).effects.all
      (fun e => !(isFsRemoveDir e)) = true ∧
    (handlePollResponse envW store4W poll4W).effects.all
      (fun e => !(mentionsCompleted e)) = true := by
  refine ⟨by decide, by decide, by decide⟩

/-- Claim C4 (amended): in bot/index.js the poll handler never deletes the
extraction directory — no execution of `handlePollResponse` (for any
environment, store and poll) performs a recursive directory removal; after
extraction the walker only reports the directory and prompts for
confirmations, and a "Process completed" message is sent only on the
declining (No) path, not after a traversal. -/
theorem C4_amended (env : Env) (store : List PendingPoll) (poll : Poll) :
    (handlePollResponse env store poll).effects.all (fun e => !(isFsRemoveDir e)) = true := by
  simp only [handlePollResponse]
  cases h : findRemove (fun p => p.pollId == poll.id) store with
  | none => rfl
  | some pr =>
    obtain ⟨entry, remaining⟩ := pr
    simp only []
    cases hf : poll.options.find? (fun option => Nat.blt 0 option.voter_count) with
    | none => rfl
    | some votedOption =>
      simp only []
      cases hv : votedOption.text == "Yes" with
      | false => simp [hv, isFsRemoveDir]
      | true =>
        simp only [hv, if_true]
        cases he : extractArchive entry.filePath
            (joinPath UNZIP_DIR (basenameMinusExt entry.filePath (extnameStr entry.filePath))) with
        | error e =>
          simp only [List.all_append, Bool.and_eq_true]
          refine ⟨⟨rfl, ?_⟩, rfl⟩
          split <;> rfl
        | ok extractEffects =>
          rw [extractArchive_ok he]
          simp only [List.all_append, Bool.and_eq_true]
          refine ⟨⟨⟨⟨⟨rfl, ?_⟩, rfl⟩, rfl⟩, rfl⟩, recursiveSendFiles_no_remove env _ _ _⟩
          split <;> rfl

/-- Claim C5: classification is a pure function of the extension, and the
photo half of the allow-list behaves as specified; but the `.ts` entry
of the video list can never match the computed extension (which never contains a
dot), so a file named `x.ts` is classified unsupported rather than video:
`getMultimediaFiles` drops it and `sendFile` sends the unsupported-type
message for it. -/
theorem C5_ts_misclassified :
    fileTypeOf "x.ts" = "ts" ∧
    SUPPORTED_VIDEO_TYPES.contains ".ts" = true ∧
    SUPPORTED_VIDEO_TYPES.contains "ts" = false ∧
    classifyFile "x.ts" = FileClass.unsupported ∧
    getMultimediaFiles ["x.ts"] = [] ∧
    sendFile 1 "x.ts" =
      [Effect.apiSendMessage 1
        "I don\x27t support sending files of type \"ts\" [File: \"x.ts\"]." []] ∧
    (["mp4", "avi", "mov", "mkv", "webm"].all
      (fun t => classifyFile ("x." ++ t) == FileClass.video)) = true ∧
    (∀ s : String, fileTypeOf s ≠ ".ts") ∧
    (∀ name : String, SUPPORTED_PHOTO_TYPES.contains (fileTypeOf name) = true →
      classifyFile name = FileClass.photo) := by
  refine ⟨by decide, by decide, by decide, by decide, by decide, by decide, by decide,
    fileTypeOf_ne_dotts, ?_⟩
  intro name h
  simp only [classifyFile, h, if_true]

/-- Claim C6 counterexample: directory `d` holds `a.png` and `notes.txt`;
confirming the send prompt transmits `a.png` as a photo and performs nothing
else — in particular no "type not supported" message is sent for
`notes.txt`, refuting the claim. -/
theorem C6_counterexample :
    handleSendMediaFileResponse env6W 7 "d" "photos.zip" =
      [Effect.apiSendPhoto 7 "d/a.png"] := by
  decide

/-- Claim C6 (amended): on confirmation, only the multimedia files of the
directory are acted on — each produces exactly one send operation, and every
effect is a photo or video send; unsupported files are filtered out
beforehand and receive no message and no bytes (the unsupported-type branch
of `sendFile` is unreachable from this flow).  The hypothesis says the
entry names of the directory contain no `/`, as `fs.readdirSync` guarantees. -/
theorem C6_amended (env : Env) (chatId : Int) (dir fileName : String)
    (hnames : ∀ item ∈ env.listDir dir, ∀ c ∈ item.name.toList, (c == '/') = false) :
    (handleSendMediaFileResponse env chatId dir fileName).all
      (fun e => isApiSendPhoto e || isApiSendVideo e) = true ∧
    (handleSendMediaFileResponse env chatId dir fileName).length =
      (getMultimediaFiles
        (((env.listDir dir).filter (fun item => !item.isDir)).map (fun item => item.name))).length := by
  have key : ∀ file ∈ getMultimediaFiles
      (((env.listDir dir).filter (fun item => !item.isDir)).map (fun item => item.name)),
      (sendFile chatId (joinPath dir file)).all
        (fun e => isApiSendPhoto e || isApiSendVideo e) = true ∧
      (sendFile chatId (joinPath dir file)).length = 1 := by
    intro file hfile
    obtain ⟨hclass, hmem⟩ := mem_getMultimediaFiles hfile
    obtain ⟨item, hitem, rfl⟩ := List.mem_map.mp hmem
    have hns : ∀ c ∈ item.name.toList, (c == '/') = false :=
      hnames item (List.mem_filter.mp hitem).1
    refine sendFile_multimedia ?_
    rw [fileTypeOf_joinPath dir item.name hns]
    exact hclass
  constructor
  · simp only [handleSendMediaFileResponse]
    rw [List.all_eq_true]
    intro e he
    obtain ⟨file, hfile, hin⟩ := List.mem_flatMap.mp he
    exact List.all_eq_true.mp (key file hfile).1 e hin
  · simp only [handleSendMediaFileResponse]
    exact flatMap_length_one _ (fun file hfile => (key file hfile).2)

/-- Witness for C6 (amended) on the fixture directory `d`. -/
theorem C6_amended_witness :
    (handleSendMediaFileResponse env6W 7 "d" "photos.zip").all
      (fun e => isApiSendPhoto e || isApiSendVideo e) = true ∧
    (handleSendMediaFileResponse env6W 7 "d" "photos.zip").length =
      (getMultimediaFiles
        (((env6W.listDir "d").filter (fun item => !item.isDir)).map (fun item => item.name))).length :=
  C6_amended env6W 7 "d" "photos.zip" (by decide)

/-- Claim C7: for every incoming document whose file name ends in neither
`.zip` nor `.rar`, the bot immediately replies with the unsupported-format
message, sends no poll, creates no pending interaction, and the correlation
store is unchanged (its sole effect is that one message). -/
theorem C7_unsupported_document (env : Env) (store : List PendingPoll)
    (chatId : Int) (document : Document)
    (h1 : strEndsWith document.file_name ".zip" = false)
    (h2 : strEndsWith document.file_name ".rar" = false) :
    handleDocument env store chatId document =
      { effects := [Effect.apiSendMessage chatId
          "I currently don\x27t support this file type!" []],
        store := store, thrown := none } := by
  simp only [handleDocument, h1, h2]
  rfl

/-- Witness for C7 at `data.7z`. -/
theorem C7_unsupported_document_witness :
    handleDocument envW [] 9 { file_name := "data.7z", file_id := "f77" } =
      { effects := [Effect.apiSendMessage 9
          "I currently don\x27t support this file type!" []],
        store := [], thrown := none } :=
  C7_unsupported_document envW [] 9 { file_name := "data.7z", file_id := "f77" }
    (by decide) (by decide)

/-- Claim C8 counterexample: `sendPoll` and `sendPhoto` (and `sendVideo`)
have no try/catch — a transport error propagates to the caller instead of
being replaced by a sentinel; only `sendMessage` catches and returns `-1`.
This refutes the claim that every outbound send operation catches transport
errors at the call site. -/
theorem C8_counterexample :
    sendMessage (Except.error "ECONNREFUSED") = -1 ∧
    sendPoll (Except.error "ECONNREFUSED") = Except.error "ECONNREFUSED" ∧
    sendPhoto (Except.error "ECONNREFUSED") = Except.error "ECONNREFUSED" ∧
    sendVideo (Except.error "ECONNREFUSED") = Except.error "ECONNREFUSED" :=
  ⟨rfl, rfl, rfl, rfl⟩

/-- Claim C8 (amended): among the outbound send operations only
`sendMessage` catches a transport error, logging it and returning the
sentinel `-1`; `sendPoll`, `sendPhoto` and `sendVideo` propagate the error
to their caller (ultimately to the per-update catch of the dispatch loop).  On
success each returns the extracted response field. -/
theorem C8_amended (e : String) (r : SendMessageResponse) (q : SendPollResponse)
    (v : SendMediaResponse) :
    sendMessage (Except.error e) = -1 ∧
    sendPoll (Except.error e) = Except.error e ∧
    sendPhoto (Except.error e) = Except.error e ∧
    sendVideo (Except.error e) = Except.error e ∧
    sendMessage (Except.ok r) = r.message_id ∧
    sendPoll (Except.ok q) = Except.ok q.poll.id ∧
    sendPhoto (Except.ok v) = Except.ok v.message_id ∧
    sendVideo (Except.ok v) = Except.ok v.message_id :=
  ⟨rfl, rfl, rfl, rfl, rfl, rfl, rfl, rfl⟩

/-- Claim C9: the interactive walker never recurses into a subdirectory
without a prior explicit confirmation event for that level: a
`recursiveSendFiles` call enters exactly its own directory (emitting prompts
but visiting no subdirectory), and the explore-subdirectories confirmation
handler enters exactly the immediate subdirectories, one level deep.  On the
concrete two-level fixture, the explore callback for `root` visits only
`root/sub1` — the subdirectory `sub2` inside `sub1` is not entered without a
further confirmation. -/
theorem C9_per_level_confirmation (env : Env) (dir : String) (chatId : Int)
    (fileName : String) :
    visitedDirs (recursiveSendFiles env dir chatId fileName) = [dir] ∧
    visitedDirs (handleExploreSubdirsResponse env chatId dir fileName) =
      (((env.listDir dir).filter (fun item => item.isDir)).map (fun item => item.name)).map
        (fun subDir => joinPath dir subDir) ∧
    visitedDirs (handleCallbackQuery envC9 cqC9) = ["./unzipped/root/sub1"] := by
  refine ⟨visitedDirs_recursiveSendFiles env dir chatId fileName, ?_, by decide⟩
  simp only [handleExploreSubdirsResponse]
  exact visitedDirs_flatMap_single _
    (fun subDir _ => visitedDirs_recursiveSendFiles env (joinPath dir subDir) chatId fileName)

/-- Claim C10: when a response for a registered poll arrives with no positively
voted option, the handler removes the pending interaction from the store
(before evaluating the vote) and then throws the TypeError from reading
`.text` of `undefined`: the entry is gone from the resulting store, the
handler raises, and no reply is sent (the only effect is the received log). -/
theorem C10_zero_votes_throws (env : Env) (store : List PendingPoll) (poll : Poll)
    (entry : PendingPoll) (remaining : List PendingPoll)
    (hfound : findRemove (fun p => p.pollId == poll.id) store = some (entry, remaining))
    (hnovote : poll.options.find? (fun option => Nat.blt 0 option.voter_count) = none) :
    handlePollResponse env store poll =
      { effects := [Effect.logMsg ("[POLL] Received response for \"" ++ entry.fileName ++
          "\" | Path: \"" ++ entry.filePath ++ "\"")],
        store := remaining,
        thrown := some "TypeError: Cannot read properties of undefined (reading \x27text\x27)" } := by
  simp only [handlePollResponse, hfound, hnovote]

/-- Witness for C10 at the fixture store and a zero-vote response to `p1`. -/
theorem C10_zero_votes_throws_witness :
    handlePollResponse envW storeW pollZeroW =
      { effects := [Effect.logMsg "[POLL] Received response for \"file.zip\" | Path: \"./file.zip\""],
        store := [],
        thrown := some "TypeError: Cannot read properties of undefined (reading \x27text\x27)" } := by
  exact C10_zero_votes_throws envW storeW pollZeroW
    { pollId := "p1", filePath := "./file.zip", fileName := "file.zip", chatId := 5 } []
    (by decide) (by decide)

end TeleDown
